import Mathlib

/-!
A shallow embedding of the srtnr-mini worker (`src/worker.ts`) and proofs
about its behaviour.

Modelling conventions:
* The two KV namespaces (`URL_KV`, `LINK_CLICKS_KV`) are association lists
  with unique keys; `put` overwrites, `get` looks up, `delete` removes.
  `URL_KV` values are the JSON serializations of `StoredLink` records; since
  that serialization is always a non-empty string (hence truthy in JS), a raw
  `get` truthiness test is modelled as `Option.isSome` of the lookup and the
  typed `get(slug, {type:'json'})` as the lookup itself.
* JS string primitives (`startsWith`, `substring`, `includes`) are modelled
  by explicit character-list functions; `decodeURIComponent` on the info
  route's path segment is the identity in the model (percent-encoded slugs
  are outside it).
* `Math.floor(Math.random() * 62)` draws are modelled by an oracle
  `Nat → Fin 6 → Fin 62`: attempt `i` of slug generation consumes the six
  values of the oracle at `i`.
* `JSON.parse(secretValue)` followed by `.includes(providedKey)` is modelled
  by `parseSecret`: a top-level JSON array keeps its string elements
  (non-string elements, which `Array.prototype.includes` can never match
  against a string key, are collapsed to `JElem.jother`); a top-level JSON
  string is kept (JS then dispatches to `String.prototype.includes`, a
  substring test); every other top-level value is `ParsedSecret.invalid`,
  which is observationally the same as a parse error because `.includes`
  on a number/boolean/null/object throws and the `catch` returns `null`.
  The parser enforces `JSON.parse`'s validation: strings reject unescaped
  control characters and unknown escapes and support `\uXXXX`, scalar
  tokens must be `true`/`false`/`null` or an RFC 8259 number, nested
  arrays and objects are validated recursively (and collapse to
  `JElem.jother` as array elements), and trailing garbage is rejected.
  The one disclosed gap: a `\uXXXX` escape in the surrogate range is
  treated as a parse error, because JS strings are UTF-16 and a lone
  surrogate code unit has no `Char` counterpart.
-/

/-- JS-style whitespace test used by both JSON parsing and `parseInt`. -/
def isJsWs (c : Char) : Bool :=
  c == ' ' || c == '\t' || c == '\n' || c == '\r'

/-- Is the first list a (character) prefix of the second? -/
def charsPrefix : List Char → List Char → Bool
  | [], _ => true
  | a :: as, bs =>
    match bs with
    | [] => false
    | b :: bs' => a == b && charsPrefix as bs'

/-- Does the second list occur contiguously inside the first? -/
def charsSub (pat : List Char) : List Char → Bool
  | [] => charsPrefix pat []
  | c :: rest => charsPrefix pat (c :: rest) || charsSub pat rest

/-- Model of JS `s.startsWith(pat)`. -/
def strStartsWith (s pat : String) : Bool :=
  charsPrefix pat.data s.data

/-- Model of JS `s.endsWith(pat)`. -/
def strEndsWith (s pat : String) : Bool :=
  charsPrefix pat.data.reverse s.data.reverse

/-- Model of JS `String.prototype.includes` (substring test). -/
def strIncludes (s pat : String) : Bool :=
  charsSub pat.data s.data

/-- Model of JS `s.substring(n)` / `s.slice(n)`. -/
def strDrop (s : String) (n : Nat) : String :=
  String.mk (s.data.drop n)

/-- Lookup in an association-list KV namespace (model of `kv.get`). -/
def kvGet {V : Type} (kv : List (String × V)) (k : String) : Option V :=
  (kv.find? (fun p => p.1 == k)).map (fun p => p.2)

/-- Overwriting insert (model of `kv.put`). -/
def kvPut {V : Type} (kv : List (String × V)) (k : String) (v : V) :
    List (String × V) :=
  (k, v) :: kv.filter (fun p => p.1 != k)

/-- Removal (model of `kv.delete`). -/
def kvDelete {V : Type} (kv : List (String × V)) (k : String) :
    List (String × V) :=
  kv.filter (fun p => p.1 != k)

/-- ASCII decimal digit test (the digits `parseInt(·, 10)` accepts). -/
def isDigitChar (c : Char) : Bool :=
  48 ≤ c.toNat && c.toNat ≤ 57

/-- Digits-only part of `parseInt`: longest digit prefix, `none` when empty
(which JS reports as `NaN`). -/
def parseDigits (cs : List Char) : Option Nat :=
  let ds := cs.takeWhile isDigitChar
  if ds.isEmpty then none
  else some (ds.foldl (fun a c => a * 10 + (c.toNat - 48)) 0)

/-- Model of JS `parseInt(s, 10)`: skip whitespace, optional sign, longest
digit prefix, trailing garbage ignored; `none` models `NaN`. -/
def parseIntJS (s : String) : Option Int :=
  match s.data.dropWhile isJsWs with
  | [] => none
  | c :: rest =>
    if c == '-' then (parseDigits rest).map (fun n => -(n : Int))
    else if c == '+' then (parseDigits rest).map (fun n => (n : Int))
    else (parseDigits (c :: rest)).map (fun n => (n : Int))

/-- Big-endian decimal digits of `n`, fuel-driven (`fuel` bounds the number
of digits emitted; `fuel = n + 1` always suffices). -/
def natDecAux : Nat → Nat → List Char → List Char
  | 0, _, acc => acc
  | fuel + 1, n, acc =>
    let acc' := Char.ofNat (48 + n % 10) :: acc
    if n < 10 then acc' else natDecAux fuel (n / 10) acc'

/-- Model of JS `String(n)` for an integer: standard decimal rendering. -/
def jsStringOfInt : Int → String
  | Int.ofNat m => String.mk (natDecAux (m + 1) m [])
  | Int.negSucc m => String.mk ('-' :: natDecAux (m + 2) (m + 1) [])

/-- A stored link record (`StoredLink` in the source). -/
structure StoredLink where
  originalUrl : String
  slug : String
  created : String
  deriving DecidableEq

/-- The slug alphabet of `generateSlug` (62 characters). -/
def slugAlphabet : String :=
  "abcdefghijklmnopqrstuvwxyzABCDEFGHIJKLMNOPQRSTUVWXYZ0123456789"

/-- Model of `generateSlug`: six independent draws from the 62-character
alphabet, the draws supplied by the oracle `r`. -/
def generateSlug (r : Fin 6 → Fin 62) : String :=
  String.mk ((List.finRange 6).map (fun i => slugAlphabet.data.getD (r i) 'a'))

/-- The stream of slugs successive `generateSlug()` calls produce, given the
randomness oracle. -/
def genFrom (rand : Nat → Fin 6 → Fin 62) : Nat → String :=
  fun i => generateSlug (rand i)

/-- Failures `getUniqueSlug` can throw. -/
inductive SlugError where
  | duplicateSlug
  | slugExhausted
  deriving DecidableEq

/-- The `for (let i = 0; i < retries; i++)` loop of `getUniqueSlug`:
`fuel` is the remaining iterations, `nextGen` indexes the next
`generateSlug()` call in the stream, `slug` is the current candidate. -/
def getUniqueSlugLoop (kv : List (String × StoredLink)) (custom : Bool)
    (gen : Nat → String) : Nat → Nat → String → Except SlugError String
  | 0, _, _ => Except.error SlugError.slugExhausted
  | fuel + 1, nextGen, slug =>
    if (kvGet kv slug).isSome then
      if custom then Except.error SlugError.duplicateSlug
      else getUniqueSlugLoop kv custom gen fuel (nextGen + 1) (gen nextGen)
    else Except.ok slug

/-- Model of `getUniqueSlug(kv, customSlug)` with the default `retries = 5`.
`customSlug || generateSlug()` makes an absent or empty custom slug fall
back to generation (JS falsiness of the empty string). -/
def getUniqueSlug (kv : List (String × StoredLink)) (customSlug : Option String)
    (gen : Nat → String) : Except SlugError String :=
  let custom := match customSlug with
    | none => false
    | some s => s != ""
  let slug0 := match customSlug with
    | none => gen 0
    | some s => if s != "" then s else gen 0
  getUniqueSlugLoop kv custom gen 5 1 slug0

/-- An element of the secret's top-level JSON array: a string, or any
non-string value (which a string token can never `===`-match). -/
inductive JElem where
  | jstr (s : String)
  | jother
  deriving DecidableEq

/-- Outcome of `JSON.parse` on the secret, as far as the subsequent
`.includes(providedKey)` can observe it. -/
inductive ParsedSecret where
  | arr (elems : List JElem)
  | str (s : String)
  | invalid
  deriving DecidableEq

/-- Skip JSON whitespace. -/
def skipJsWs (cs : List Char) : List Char :=
  cs.dropWhile isJsWs

/-- JSON string escapes mapped to the character they denote: the
self-representing ones, the letter escapes, and nothing else (the `\uXXXX`
form is handled separately in the string parser). -/
def escChar (e : Char) : Option Char :=
  if e == '"' || e == '\\' || e == '/' then some e
  else if e == 'n' then some (Char.ofNat 10)
  else if e == 't' then some (Char.ofNat 9)
  else if e == 'r' then some (Char.ofNat 13)
  else if e == 'b' then some (Char.ofNat 8)
  else if e == 'f' then some (Char.ofNat 12)
  else none

/-- Value of one hexadecimal digit character, if it is one. -/
def hexDigitVal (c : Char) : Option Nat :=
  if isDigitChar c then some (c.toNat - 48)
  else if 97 ≤ c.toNat && c.toNat ≤ 102 then some (c.toNat - 87)
  else if 65 ≤ c.toNat && c.toNat ≤ 70 then some (c.toNat - 55)
  else none

/-- Parse the body and closing quote of a JSON string (the opening quote
already consumed); returns the decoded string and the remaining input.
As for `JSON.parse`: an unescaped control character (code point below 32),
an unknown escape, or a missing closing quote is a parse error. A `\uXXXX`
escape denotes its code point; the surrogate range is outside the model and
treated as a parse error (JS would produce UTF-16 surrogate code units,
which have no counterpart in a `Char`). -/
def parseJStringAux : List Char → List Char → Option (String × List Char)
  | _, [] => none
  | acc, '"' :: rest => some (String.mk acc.reverse, rest)
  | acc, '\\' :: 'u' :: a :: b :: c :: d :: rest =>
    match hexDigitVal a, hexDigitVal b, hexDigitVal c, hexDigitVal d with
    | some va, some vb, some vc, some vd =>
      let n := va * 4096 + vb * 256 + vc * 16 + vd
      if 0xD800 ≤ n && n ≤ 0xDFFF then none
      else parseJStringAux (Char.ofNat n :: acc) rest
    | _, _, _, _ => none
  | acc, '\\' :: e :: rest =>
    match escChar e with
    | some ch => parseJStringAux (ch :: acc) rest
    | none => none
  | acc, c :: rest =>
    if c.toNat < 32 then none else parseJStringAux (c :: acc) rest

/-- Characters a non-string scalar token (number, `true`, `false`, `null`)
may consist of; the extracted token is then validated against the JSON
grammar, so this set only delimits tokens. -/
def isScalarChar (c : Char) : Bool :=
  c.isAlphanum || c == '-' || c == '+' || c == '.'

/-- Exponent part of the RFC 8259 number grammar (`[eE][+-]?[0-9]+`),
required to consume the whole remaining token. -/
def jsonNumExp (cs : List Char) : Bool :=
  match cs with
  | [] => true
  | e :: r =>
    if e == 'e' || e == 'E' then
      let r1 := match r with
        | s :: r' => if s == '+' || s == '-' then r' else r
        | [] => r
      match r1 with
      | [] => false
      | d :: _ => isDigitChar d && (r1.dropWhile isDigitChar).isEmpty
    else false

/-- Fraction-then-exponent part of the number grammar (`(\.[0-9]+)?` and on). -/
def jsonNumFrac (cs : List Char) : Bool :=
  match cs with
  | '.' :: r =>
    match r with
    | [] => false
    | d :: _ => isDigitChar d && jsonNumExp (r.dropWhile isDigitChar)
  | _ => jsonNumExp cs

/-- Does the token form a valid JSON number (`-? (0|[1-9][0-9]*) frac? exp?`)?
Leading plus signs, leading zeros, bare dots and `Infinity`/`NaN` are all
rejected, as for `JSON.parse`. -/
def isJsonNumber (cs : List Char) : Bool :=
  let cs1 := match cs with
    | '-' :: r => r
    | _ => cs
  match cs1 with
  | [] => false
  | c :: r =>
    if c == '0' then jsonNumFrac r
    else if isDigitChar c then jsonNumFrac (r.dropWhile isDigitChar)
    else false

mutual

/-- Validate one JSON value of any type — string, number, `true`/`false`/
`null`, array or object, nested arbitrarily — returning the remaining
input, or `none` on a parse error; `fuel` bounds the recursion (one unit
per nesting step, each of which consumes input). The opening and closing
brace characters are written as their code points 123 and 125. -/
def jsonValue : Nat → List Char → Option (List Char)
  | 0, _ => none
  | fuel + 1, cs =>
    match skipJsWs cs with
    | [] => none
    | c :: rest =>
      if c == '"' then (parseJStringAux [] rest).map (fun p => p.2)
      else if c == '[' then jsonElemsTail fuel rest true
      else if c.toNat == 123 then jsonMembersTail fuel rest true
      else
        let tok := (c :: rest).takeWhile isScalarChar
        if tok == "true".data || tok == "false".data || tok == "null".data ||
            isJsonNumber tok then some ((c :: rest).drop tok.length)
        else none

/-- Validate the elements of an array after its opening bracket (`first`)
or after a comma (`¬first`), through the closing bracket. -/
def jsonElemsTail : Nat → List Char → Bool → Option (List Char)
  | 0, _, _ => none
  | fuel + 1, cs, first =>
    match skipJsWs cs with
    | [] => none
    | c :: rest =>
      if first && c == ']' then some rest
      else
        match jsonValue fuel (c :: rest) with
        | none => none
        | some rest2 =>
          match skipJsWs rest2 with
          | ',' :: rest3 => jsonElemsTail fuel rest3 false
          | ']' :: rest3 => some rest3
          | _ => none

/-- Validate the members of an object after its opening brace (`first`) or
after a comma (`¬first`), through the closing brace: string key, colon,
value. -/
def jsonMembersTail : Nat → List Char → Bool → Option (List Char)
  | 0, _, _ => none
  | fuel + 1, cs, first =>
    match skipJsWs cs with
    | [] => none
    | c :: rest =>
      if first && c.toNat == 125 then some rest
      else if c == '"' then
        match parseJStringAux [] rest with
        | none => none
        | some p =>
          match skipJsWs p.2 with
          | ':' :: rest2 =>
            match jsonValue fuel rest2 with
            | none => none
            | some rest3 =>
              match skipJsWs rest3 with
              | ',' :: rest4 => jsonMembersTail fuel rest4 false
              | c2 :: rest4 => if c2.toNat == 125 then some rest4 else none
              | [] => none
          | _ => none
      else none

end

/-- Parse one element of the top-level secret array: a JSON string keeps
its decoded content (only string elements can `===`-match the provided
key); every other value — number, `true`/`false`/`null`, nested array or
object — is validated like `JSON.parse` and collapses to `JElem.jother`.
An invalid element is a parse error for the whole document. -/
def parseElem (fuel : Nat) (cs : List Char) : Option (JElem × List Char) :=
  match cs with
  | '"' :: rest => (parseJStringAux [] rest).map (fun p => (JElem.jstr p.1, p.2))
  | cs => (jsonValue fuel cs).map (fun r => (JElem.jother, r))

/-- Parse the comma-separated elements of a non-empty JSON array up to the
closing bracket; `fuel` bounds the recursion. -/
def parseElemsAux : Nat → List Char → List JElem → Option (List JElem × List Char)
  | 0, _, _ => none
  | fuel + 1, cs, acc =>
    match parseElem fuel (skipJsWs cs) with
    | none => none
    | some (e, rest) =>
      match skipJsWs rest with
      | ',' :: rest2 => parseElemsAux fuel rest2 (e :: acc)
      | ']' :: rest2 => some ((e :: acc).reverse, rest2)
      | _ => none

/-- Model of `JSON.parse(secretValue)` as observed by
`allowedKeys.includes(providedKey)`; see the header comment. -/
def parseSecret (s : String) : ParsedSecret :=
  match skipJsWs s.data with
  | '"' :: rest =>
    match parseJStringAux [] rest with
    | some (str, rest2) =>
      if (skipJsWs rest2).isEmpty then ParsedSecret.str str else ParsedSecret.invalid
    | none => ParsedSecret.invalid
  | '[' :: rest =>
    match skipJsWs rest with
    | ']' :: rest2 =>
      if (skipJsWs rest2).isEmpty then ParsedSecret.arr [] else ParsedSecret.invalid
    | _ =>
      match parseElemsAux (2 * rest.length + 2) rest [] with
      | some (elems, rest2) =>
        if (skipJsWs rest2).isEmpty then ParsedSecret.arr elems else ParsedSecret.invalid
      | none => ParsedSecret.invalid
  | _ => ParsedSecret.invalid

/-- Does the parsed secret `.includes` the provided key? For an array this is
`Array.prototype.includes` (SameValueZero, so only string elements can match
a string key); for a string it is the substring test. -/
def parsedIncludes (p : ParsedSecret) (key : String) : Bool :=
  match p with
  | ParsedSecret.arr elems =>
    elems.any (fun e => match e with
      | JElem.jstr t => t == key
      | JElem.jother => false)
  | ParsedSecret.str s => strIncludes s key
  | ParsedSecret.invalid => false

/-- Model of `validateApiKey`: `authHeader` is the `Authorization` header,
`secret` the resolved secret value (`none` when the binding is absent,
resolution returned `null`, or resolution threw — all reach the same
unauthorized result). Returns the parsed allow list on success, `none`
(for the JS `null`) otherwise. -/
def validateApiKey (authHeader : Option String) (secret : Option String) :
    Option ParsedSecret :=
  match authHeader with
  | none => none
  | some h =>
    if !(strStartsWith h "Bearer ") then none
    else
      let providedKey := strDrop h 7
      match secret with
      | none => none
      | some sv =>
        if sv == "" then none
        else
          match parseSecret sv with
          | ParsedSecret.invalid => none
          | p => if parsedIncludes p providedKey then some p else none

/-- The worker environment (`Env` in the source): the link KV namespace, the
resolved API-keys secret value, and the clicks KV namespace. `apiKeys = none`
models an absent binding / `get()` returning `null` or throwing. -/
structure Env where
  urlKV : List (String × StoredLink)
  apiKeys : Option String
  clicksKV : List (String × String)
  deriving DecidableEq

/-- The request body as the handlers observe it after `request.json()`:
`malformed` models a body on which `request.json()` (or field access on a
non-object) throws; `obj` carries the `url` and `slug` fields, `none` for a
missing field. Non-string field values are outside the model. -/
inductive ReqBody where
  | malformed
  | obj (url : Option String) (slug : Option String)
  deriving DecidableEq

/-- An inbound HTTP request, reduced to what the worker inspects. -/
structure Req where
  method : String
  pathname : String
  origin : String
  authHeader : Option String
  body : ReqBody
  deriving DecidableEq

/-- A single link-info record as returned by `getLinkInfo`. -/
structure LinkInfo where
  slug : String
  destination : String
  created : String
  clicks : Int
  deriving DecidableEq

/-- An outbound response, reduced to what the worker can produce. -/
inductive Resp where
  | health
  | jsonError (status : Nat) (msg : String)
  | shortened (shortUrl : String) (slug : String)
  | deleted
  | info (i : LinkInfo)
  | links (items : List LinkInfo)
  | redirect (location : String)
  | text (status : Nat) (body : String)
  deriving DecidableEq

/-- The HTTP status each response carries. -/
def respStatus : Resp → Nat
  | Resp.health => 200
  | Resp.jsonError s _ => s
  | Resp.shortened _ _ => 200
  | Resp.deleted => 200
  | Resp.info _ => 200
  | Resp.links _ => 200
  | Resp.redirect _ => 301
  | Resp.text s _ => s

/-- Model of `getClickCount`: read the raw counter, `parseInt` it with `'0'`
substituted for a missing value, and fall back to `0` on `NaN`. -/
def getClickCount (clicksKV : List (String × String)) (slug : String) : Int :=
  let raw := kvGet clicksKV slug
  let n := parseIntJS (match raw with | none => "0" | some s => s)
  match n with
  | some v => v
  | none => 0

/-- Model of `incrementClickCount`: read-parse-add-one-write. -/
def incrementClickCount (clicksKV : List (String × String)) (slug : String) :
    List (String × String) :=
  let next := getClickCount clicksKV slug + 1
  kvPut clicksKV slug (jsStringOfInt next)

/-- Model of `getLinkInfo`. -/
def getLinkInfo (env : Env) (slug : String) : Option LinkInfo :=
  match kvGet env.urlKV slug with
  | none => none
  | some stored =>
    some ⟨stored.slug, stored.originalUrl, stored.created,
          getClickCount env.clicksKV slug⟩

/-- The dispatch test of the single-link info route (`GET /api/links/{slug}`
or `GET /links/{slug}` with a non-empty slug); the string-length literals are
the lengths of the two base paths. -/
def isInfoPath (pathname : String) : Bool :=
  (strStartsWith pathname "/api/links/" && decide (pathname.length > 11)) ||
  (strStartsWith pathname "/links/" && decide (pathname.length > 7))

/-- The dispatch test of the list route. -/
def isListPath (pathname : String) : Bool :=
  pathname == "/api/links" || pathname == "/api/links/" ||
  pathname == "/links" || pathname == "/links/"

/-- The model of the worker's `fetch` handler. Inputs beyond the request:
`rand` is the randomness oracle for slug generation and `now` the ISO
timestamp `new Date().toISOString()` would produce. The result pairs the
response with the updated environment; the fire-and-forget click increment
of the redirect path is included in the updated environment (the claims
address the race-free behaviour). -/
def fetch (env : Env) (req : Req) (rand : Nat → Fin 6 → Fin 62) (now : String) :
    Resp × Env :=
  let pathname := req.pathname
  if req.method == "GET" && pathname == "/" then
    (Resp.health, env)
  else if req.method == "POST" && pathname == "/api/shorten" then
    match validateApiKey req.authHeader env.apiKeys with
    | none => (Resp.jsonError 401 "missing or invalid API key", env)
    | some _ =>
      match req.body with
      | ReqBody.malformed => (Resp.jsonError 500 "Server Error", env)
      | ReqBody.obj url slugField =>
        match url with
        | none => (Resp.jsonError 400 "Invalid URL", env)
        | some u =>
          if u == "" || !(strStartsWith u "http") then
            (Resp.jsonError 400 "Invalid URL", env)
          else
            match getUniqueSlug env.urlKV slugField (genFrom rand) with
            | Except.error _ => (Resp.jsonError 500 "Server Error", env)
            | Except.ok slug =>
              let linkData : StoredLink := ⟨u, slug, now⟩
              (Resp.shortened (req.origin ++ "/" ++ slug) slug,
               { env with urlKV := kvPut env.urlKV slug linkData })
  else if req.method == "DELETE" && pathname == "/api/delete" then
    match validateApiKey req.authHeader env.apiKeys with
    | none => (Resp.jsonError 401 "missing or invalid API key", env)
    | some _ =>
      match req.body with
      | ReqBody.malformed => (Resp.jsonError 500 "server error", env)
      | ReqBody.obj _ slugField =>
        match slugField with
        | none => (Resp.jsonError 400 "missing slug", env)
        | some s =>
          if s == "" then (Resp.jsonError 400 "missing slug", env)
          else if (kvGet env.urlKV s).isSome then
            (Resp.deleted, { env with urlKV := kvDelete env.urlKV s })
          else (Resp.jsonError 404 "slug not found", env)
  else if req.method == "GET" && isInfoPath pathname then
    let base := if strStartsWith pathname "/api/links/" then "/api/links/" else "/links/"
    let slug := strDrop pathname base.length
    match validateApiKey req.authHeader env.apiKeys with
    | none => (Resp.jsonError 401 "missing or invalid API key", env)
    | some _ =>
      match getLinkInfo env slug with
      | none => (Resp.jsonError 404 "slug not found", env)
      | some i => (Resp.info i, env)
  else if req.method == "GET" && isListPath pathname then
    match validateApiKey req.authHeader env.apiKeys with
    | none => (Resp.jsonError 401 "missing or invalid API key", env)
    | some _ =>
      let uniqueKeys := (env.urlKV.map (fun p => p.1)).eraseDups
      (Resp.links (uniqueKeys.filterMap (getLinkInfo env)), env)
  else if req.method == "GET" && !(strStartsWith pathname "/api/") then
    let slug := if strStartsWith pathname "/" then strDrop pathname 1 else pathname
    if slug == "" then (Resp.text 404 "not found", env)
    else
      match kvGet env.urlKV slug with
      | none => (Resp.text 404 "not found", env)
      | some stored =>
        (Resp.redirect stored.originalUrl,
         { env with clicksKV := incrementClickCount env.clicksKV slug })
  else (Resp.text 404 "not found", env)

/-- The first list is a prefix of itself extended by anything. -/
theorem charsPrefix_self_append (p r : List Char) : charsPrefix p (p ++ r) = true := by
  induction p with
  | nil => rfl
  | cons a as ih => simp [charsPrefix, ih]

/-- The prefix test holds exactly when the target decomposes as prefix plus rest. -/
theorem charsPrefix_iff (p : List Char) :
    ∀ l, charsPrefix p l = true ↔ ∃ r, l = p ++ r := by
  induction p with
  | nil => intro l; simp [charsPrefix]
  | cons a as ih =>
    intro l
    cases l with
    | nil => simp [charsPrefix]
    | cons b bs =>
      simp only [charsPrefix, Bool.and_eq_true, beq_iff_eq, ih, List.cons_append,
        List.cons.injEq]
      constructor
      · rintro ⟨rfl, r, rfl⟩
        exact ⟨r, rfl, rfl⟩
      · rintro ⟨r, rfl, rfl⟩
        exact ⟨rfl, r, rfl⟩

/-- A prefix is no longer than the whole. -/
theorem charsPrefix_length_le {p l : List Char} (h : charsPrefix p l = true) :
    p.length ≤ l.length := by
  obtain ⟨r, rfl⟩ := (charsPrefix_iff p l).1 h
  simp

/-- A common leading segment cancels in the prefix test. -/
theorem charsPrefix_append_left (x p l : List Char) :
    charsPrefix (x ++ p) (x ++ l) = charsPrefix p l := by
  induction x with
  | nil => rfl
  | cons a as ih => simp [charsPrefix, ih]

/-- Reading a key just written. -/
theorem kvGet_kvPut_same {V : Type} (kv : List (String × V)) (k : String) (v : V) :
    kvGet (kvPut kv k v) k = some v := by
  simp [kvGet, kvPut, List.find?]

/-- Lookup distributes over a cons cell. -/
theorem kvGet_cons {V : Type} (k0 : String) (v0 : V) (kv : List (String × V))
    (k : String) :
    kvGet ((k0, v0) :: kv) k = if k0 == k then some v0 else kvGet kv k := by
  cases h : k0 == k <;> simp [kvGet, List.find?, h]

/-- Filtering out a different key does not change a lookup. -/
theorem kvGet_filter_ne {V : Type} (kv : List (String × V)) (k k' : String)
    (h : k' ≠ k) :
    kvGet (kv.filter (fun p => p.1 != k)) k' = kvGet kv k' := by
  induction kv with
  | nil => rfl
  | cons p rest ih =>
    obtain ⟨k0, v0⟩ := p
    by_cases hp : k0 = k
    · have hne : (k0 != k) = false := by simp [hp]
      have hk' : (k0 == k') = false := by simp [hp, Ne.symm h]
      simp [List.filter, hne, ih, kvGet_cons, hk']
    · have hne : (k0 != k) = true := by simp [hp]
      simp [List.filter, hne, kvGet_cons, ih]

/-- Writing one key does not change another key's lookup. -/
theorem kvGet_kvPut_ne {V : Type} (kv : List (String × V)) (k k' : String) (v : V)
    (h : k' ≠ k) : kvGet (kvPut kv k v) k' = kvGet kv k' := by
  have hk : (k == k') = false := by simp [Ne.symm h]
  simp [kvPut, kvGet_cons, hk, kvGet_filter_ne _ _ _ h]

/-- Reading a deleted key. -/
theorem kvGet_kvDelete_same {V : Type} (kv : List (String × V)) (k : String) :
    kvGet (kvDelete kv k) k = none := by
  induction kv with
  | nil => rfl
  | cons p rest ih =>
    obtain ⟨k0, v0⟩ := p
    by_cases hp : k0 = k
    · have hne : (k0 != k) = false := by simp [hp]
      simpa [kvDelete, List.filter, hne] using ih
    · have ht : (k0 != k) = true := by simp [hp]
      have hk : (k0 == k) = false := by simp [hp]
      simpa [kvDelete, List.filter, ht, kvGet_cons, hk] using ih

/-- Characters with different code points are `BEq`-different. -/
theorem ne_of_toNat_ne {c d : Char} (h : c.toNat ≠ d.toNat) : (c == d) = false := by
  cases hcd : c == d
  · rfl
  · exact absurd (congrArg Char.toNat (eq_of_beq hcd)) h

/-- The code-point bounds packed in `isDigitChar`. -/
theorem isDigitChar_bounds {c : Char} (h : isDigitChar c = true) :
    48 ≤ c.toNat ∧ c.toNat ≤ 57 := by
  simpa [isDigitChar] using h

/-- A decimal digit is not JS whitespace. -/
theorem isJsWs_of_digit {c : Char} (h : isDigitChar c = true) : isJsWs c = false := by
  obtain ⟨h1, h2⟩ := isDigitChar_bounds h
  have hsp : (c == ' ') = false :=
    ne_of_toNat_ne (by intro heq; rw [heq] at h1; exact absurd h1 (by decide))
  have hta : (c == '\t') = false :=
    ne_of_toNat_ne (by intro heq; rw [heq] at h1; exact absurd h1 (by decide))
  have hnl : (c == '\n') = false :=
    ne_of_toNat_ne (by intro heq; rw [heq] at h1; exact absurd h1 (by decide))
  have hcr : (c == '\r') = false :=
    ne_of_toNat_ne (by intro heq; rw [heq] at h1; exact absurd h1 (by decide))
  simp [isJsWs, hsp, hta, hnl, hcr]

/-- A decimal digit is not the minus sign. -/
theorem beq_minus_of_digit {c : Char} (h : isDigitChar c = true) : (c == '-') = false :=
  ne_of_toNat_ne (by
    intro heq
    have h1 := (isDigitChar_bounds h).1
    rw [heq] at h1
    exact absurd h1 (by decide))

/-- A decimal digit is not the plus sign. -/
theorem beq_plus_of_digit {c : Char} (h : isDigitChar c = true) : (c == '+') = false :=
  ne_of_toNat_ne (by
    intro heq
    have h1 := (isDigitChar_bounds h).1
    rw [heq] at h1
    exact absurd h1 (by decide))

/-- Code point of the digit character for `r < 10`. -/
theorem toNat_digitCharOf {r : Nat} (h : r < 10) :
    (Char.ofNat (48 + r)).toNat = 48 + r := by
  interval_cases r <;> decide

/-- The digit character for `r < 10` is a digit. -/
theorem isDigitChar_digitCharOf {r : Nat} (h : r < 10) :
    isDigitChar (Char.ofNat (48 + r)) = true := by
  interval_cases r <;> decide

/-- The accumulator-passing decimal value of a digit string. -/
def digitsVal (a : Nat) (ds : List Char) : Nat :=
  ds.foldl (fun x c => x * 10 + (c.toNat - 48)) a

/-- Specification of `natDecAux`: with enough fuel it prepends a non-empty
digit string whose decimal value is `n`. -/
theorem natDecAux_spec :
    ∀ (fuel n : Nat) (acc : List Char), n < 10 ^ (fuel + 1) →
      ∃ ds, natDecAux (fuel + 1) n acc = ds ++ acc ∧ ds ≠ [] ∧
        (∀ c ∈ ds, isDigitChar c = true) ∧
        ∀ a : Nat, digitsVal a ds = a * 10 ^ ds.length + n := by
  intro fuel
  induction fuel with
  | zero =>
    intro n acc hn
    have hn10 : n < 10 := by simpa using hn
    refine ⟨[Char.ofNat (48 + n % 10)], ?_, by simp, ?_, ?_⟩
    · simp [natDecAux, hn10]
    · intro c hc
      simp at hc
      subst hc
      exact isDigitChar_digitCharOf (Nat.mod_lt _ (by omega))
    · intro a
      have ht := toNat_digitCharOf (r := n % 10) (Nat.mod_lt _ (by omega))
      simp only [digitsVal, List.foldl_cons, List.foldl_nil, ht,
        List.length_cons, List.length_nil, pow_one]
      omega
  | succ fuel ih =>
    intro n acc hn
    by_cases hlt : n < 10
    · refine ⟨[Char.ofNat (48 + n % 10)], ?_, by simp, ?_, ?_⟩
      · simp [natDecAux, hlt]
      · intro c hc
        simp at hc
        subst hc
        exact isDigitChar_digitCharOf (Nat.mod_lt _ (by omega))
      · intro a
        have ht := toNat_digitCharOf (r := n % 10) (Nat.mod_lt _ (by omega))
        simp only [digitsVal, List.foldl_cons, List.foldl_nil, ht,
          List.length_cons, List.length_nil, pow_one]
        omega
    · have hdiv : n / 10 < 10 ^ (fuel + 1) := by
        apply Nat.div_lt_of_lt_mul
        have hps : 10 ^ (fuel + 1 + 1) = 10 ^ (fuel + 1) * 10 := pow_succ 10 (fuel + 1)
        omega
      obtain ⟨ds', hres, hne, hdig, hval⟩ :=
        ih (n / 10) (Char.ofNat (48 + n % 10) :: acc) hdiv
      refine ⟨ds' ++ [Char.ofNat (48 + n % 10)], ?_, by simp, ?_, ?_⟩
      · have hstep :
            natDecAux (fuel + 1 + 1) n acc =
              natDecAux (fuel + 1) (n / 10) (Char.ofNat (48 + n % 10) :: acc) := by
          simp [natDecAux, hlt]
        rw [hstep, hres, List.append_assoc]
        rfl
      · intro c hc
        rcases List.mem_append.1 hc with hc' | hc'
        · exact hdig c hc'
        · simp at hc'
          subst hc'
          exact isDigitChar_digitCharOf (Nat.mod_lt _ (by omega))
      · intro a
        have ht := toNat_digitCharOf (r := n % 10) (Nat.mod_lt _ (by omega))
        have hfold : digitsVal a (ds' ++ [Char.ofNat (48 + n % 10)]) =
            digitsVal a ds' * 10 + n % 10 := by
          simp [digitsVal, List.foldl_append, ht]
        rw [hfold, hval a]
        have hlen : (ds' ++ [Char.ofNat (48 + n % 10)]).length = ds'.length + 1 := by
          simp
        rw [hlen, pow_succ]
        have := Nat.div_add_mod n 10
        ring_nf
        omega

/-- Parsing inverts a digit string of known value. -/
theorem parseDigits_of_spec {ds : List Char} {n : Nat} (hne : ds ≠ [])
    (hdig : ∀ c ∈ ds, isDigitChar c = true)
    (hval : ∀ a : Nat, digitsVal a ds = a * 10 ^ ds.length + n) :
    parseDigits ds = some n := by
  have htake : ds.takeWhile isDigitChar = ds := List.takeWhile_eq_self_iff.2 hdig
  have hempty : ds.isEmpty = false := by
    cases ds with
    | nil => exact absurd rfl hne
    | cons c t => rfl
  have h0 := hval 0
  simp [digitsVal] at h0
  simp [parseDigits, htake, hempty, h0]

/-- Evaluation of `parseIntJS` on a digit-headed character list. -/
theorem parseIntJS_digits {c : Char} (t : List Char) (hdc : isDigitChar c = true) :
    parseIntJS (String.mk (c :: t)) =
      (parseDigits (c :: t)).map (fun n => (n : Int)) := by
  have hws : isJsWs c = false := isJsWs_of_digit hdc
  simp only [parseIntJS]
  rw [List.dropWhile_cons, hws]
  simp [beq_minus_of_digit hdc, beq_plus_of_digit hdc]

/-- Evaluation of `parseIntJS` on a minus-headed character list. -/
theorem parseIntJS_minus (t : List Char) :
    parseIntJS (String.mk ('-' :: t)) = (parseDigits t).map (fun n => -(n : Int)) := by
  simp only [parseIntJS]
  rw [List.dropWhile_cons, show isJsWs '-' = false from by decide]
  simp

/-- Round trip: `parseInt(String(n), 10)` recovers any integer `n`. -/
theorem parseIntJS_jsStringOfInt (n : Int) : parseIntJS (jsStringOfInt n) = some n := by
  cases n with
  | ofNat m =>
    have hm : m < 10 ^ (m + 1) :=
      lt_of_lt_of_le (Nat.lt_pow_self (by norm_num) m)
        (Nat.pow_le_pow_right (by norm_num) (Nat.le_succ m))
    obtain ⟨ds, hres, hne, hdig, hval⟩ := natDecAux_spec m m [] hm
    rw [List.append_nil] at hres
    have hparse : parseDigits ds = some m := parseDigits_of_spec hne hdig hval
    obtain ⟨c, t, rfl⟩ : ∃ c t, ds = c :: t := by
      cases ds with
      | nil => exact absurd rfl hne
      | cons c t => exact ⟨c, t, rfl⟩
    have hdc : isDigitChar c = true := hdig c (by simp)
    show parseIntJS (String.mk (natDecAux (m + 1) m [])) = some (Int.ofNat m)
    rw [hres, parseIntJS_digits t hdc, hparse]
    rfl
  | negSucc m =>
    have hm : m + 1 < 10 ^ (m + 1 + 1) :=
      lt_of_lt_of_le (Nat.lt_pow_self (by norm_num) (m + 1))
        (Nat.pow_le_pow_right (by norm_num) (Nat.le_succ (m + 1)))
    obtain ⟨ds, hres, hne, hdig, hval⟩ := natDecAux_spec (m + 1) (m + 1) [] hm
    rw [List.append_nil] at hres
    have hparse : parseDigits ds = some (m + 1) := parseDigits_of_spec hne hdig hval
    show parseIntJS (String.mk ('-' :: natDecAux (m + 1 + 1) (m + 1) [])) =
      some (Int.negSucc m)
    rw [hres, parseIntJS_minus, hparse]
    simp [Int.negSucc_eq]

/-- A stored counter of the form `String(v)` reads back as `v`. -/
theorem getClickCount_of_kvGet {ck : List (String × String)} {s : String} {v : Int}
    (h : kvGet ck s = some (jsStringOfInt v)) : getClickCount ck s = v := by
  simp [getClickCount, h, parseIntJS_jsStringOfInt]

/-- A missing counter reads as zero (`parseInt('0', 10) = 0`). -/
theorem getClickCount_missing {ck : List (String × String)} {s : String}
    (h : kvGet ck s = none) : getClickCount ck s = 0 := by
  simp [getClickCount, h, show parseIntJS "0" = some 0 from by decide]

/-- One increment raises the read-back counter by exactly one. -/
theorem clickCount_after_increment (ck : List (String × String)) (s : String) :
    getClickCount (incrementClickCount ck s) s = getClickCount ck s + 1 := by
  apply getClickCount_of_kvGet
  simp [incrementClickCount, kvGet_kvPut_same]

/-- The first increment of an absent counter stores the string `"1"`. -/
theorem increment_of_missing {ck : List (String × String)} {s : String}
    (h : kvGet ck s = none) :
    kvGet (incrementClickCount ck s) s = some "1" := by
  rw [show incrementClickCount ck s =
      kvPut ck s (jsStringOfInt (getClickCount ck s + 1)) from rfl]
  rw [getClickCount_missing h, kvGet_kvPut_same]
  decide

/-- An increment touches no other key of the click store. -/
theorem increment_frame {ck : List (String × String)} {s s' : String} (h : s' ≠ s) :
    kvGet (incrementClickCount ck s) s' = kvGet ck s' := by
  rw [show incrementClickCount ck s =
      kvPut ck s (jsStringOfInt (getClickCount ck s + 1)) from rfl]
  exact kvGet_kvPut_ne _ _ _ _ h

/-- A fresh custom slug is returned at the first (and only) existence check. -/
theorem getUniqueSlug_custom_fresh (kv : List (String × StoredLink)) (s : String)
    (gen : Nat → String) (hs : s ≠ "") (h : kvGet kv s = none) :
    getUniqueSlug kv (some s) gen = Except.ok s := by
  have hsb : (s != "") = true := by simp [hs]
  simp [getUniqueSlug, hsb, getUniqueSlugLoop, h]

/-- A colliding custom slug fails immediately with `DuplicateSlug`,
independently of the random stream (no retry, no regeneration). -/
theorem getUniqueSlug_custom_dup (kv : List (String × StoredLink)) (s : String)
    (gen : Nat → String) (hs : s ≠ "") (h : (kvGet kv s).isSome = true) :
    getUniqueSlug kv (some s) gen = Except.error SlugError.duplicateSlug := by
  have hsb : (s != "") = true := by simp [hs]
  simp [getUniqueSlug, hsb, getUniqueSlugLoop, h]

/-- An empty custom slug is treated exactly like an absent one. -/
theorem getUniqueSlug_empty_custom (kv : List (String × StoredLink))
    (gen : Nat → String) :
    getUniqueSlug kv (some "") gen = getUniqueSlug kv none gen := by
  simp [getUniqueSlug]

/-- Any slug the auto-generating loop returns is absent from the store and
came from the generation stream. -/
theorem getUniqueSlugLoop_ok_shape (kv : List (String × StoredLink))
    (gen : Nat → String) :
    ∀ (fuel next : Nat) (slug s : String),
      getUniqueSlugLoop kv false gen fuel next slug = Except.ok s →
      kvGet kv s = none ∧ (s = slug ∨ ∃ i, s = gen i) := by
  intro fuel
  induction fuel with
  | zero =>
    intro next slug s h
    simp [getUniqueSlugLoop] at h
  | succ fuel ih =>
    intro next slug s h
    by_cases hk : (kvGet kv slug).isSome
    · rw [getUniqueSlugLoop, if_pos hk, if_neg (by simp)] at h
      obtain ⟨h1, h2⟩ := ih _ _ _ h
      refine ⟨h1, Or.inr ?_⟩
      rcases h2 with he | ⟨i, hi⟩
      · exact ⟨next, he⟩
      · exact ⟨i, hi⟩
    · rw [getUniqueSlugLoop, if_neg hk] at h
      obtain rfl : slug = s := by simpa using h
      exact ⟨Option.not_isSome_iff_eq_none.1 hk, Or.inl rfl⟩

/-- One unfolding of the non-custom retry loop. -/
theorem getUniqueSlugLoop_step (kv : List (String × StoredLink)) (gen : Nat → String)
    (fuel next : Nat) (slug : String) :
    getUniqueSlugLoop kv false gen (fuel + 1) next slug =
      if (kvGet kv slug).isSome then
        getUniqueSlugLoop kv false gen fuel (next + 1) (gen next)
      else Except.ok slug := by
  rw [getUniqueSlugLoop]
  simp

/-- If the incoming candidate and every generated candidate collide, the loop
exhausts its fuel and throws `SlugExhausted`. -/
theorem getUniqueSlugLoop_exhaust (kv : List (String × StoredLink))
    (gen : Nat → String) :
    ∀ (fuel next : Nat) (slug : String),
      (kvGet kv slug).isSome = true →
      (∀ j, next ≤ j → j + 1 < next + fuel → (kvGet kv (gen j)).isSome = true) →
      getUniqueSlugLoop kv false gen fuel next slug =
        Except.error SlugError.slugExhausted := by
  intro fuel
  induction fuel with
  | zero => intro next slug _ _; rfl
  | succ fuel ih =>
    intro next slug h1 h2
    rw [getUniqueSlugLoop_step, if_pos h1]
    cases fuel with
    | zero => rfl
    | succ fuel' =>
      apply ih (next + 1) (gen next)
      · exact h2 next (le_refl _) (by omega)
      · intro j hj1 hj2
        exact h2 j (by omega) (by omega)

/-- When the first five generated candidates all collide, `getUniqueSlug`
without a custom slug throws `SlugExhausted`. -/
theorem getUniqueSlug_exhausted (kv : List (String × StoredLink))
    (gen : Nat → String) (h : ∀ i, i < 5 → (kvGet kv (gen i)).isSome = true) :
    getUniqueSlug kv none gen = Except.error SlugError.slugExhausted := by
  have e : getUniqueSlug kv none gen = getUniqueSlugLoop kv false gen 5 1 (gen 0) := rfl
  rw [e]
  apply getUniqueSlugLoop_exhaust
  · exact h 0 (by omega)
  · intro j hj1 hj2
    exact h j (by omega)

/-- If the incoming candidate collides, the generated candidates up to `i`
collide and `gen i` is fresh (within fuel), the loop returns `gen i`. -/
theorem getUniqueSlugLoop_skips (kv : List (String × StoredLink))
    (gen : Nat → String) :
    ∀ (fuel next : Nat) (slug : String) (i : Nat),
      (kvGet kv slug).isSome = true →
      next ≤ i →
      i + 2 ≤ next + fuel →
      (∀ j, next ≤ j → j < i → (kvGet kv (gen j)).isSome = true) →
      (kvGet kv (gen i)).isSome = false →
      getUniqueSlugLoop kv false gen fuel next slug = Except.ok (gen i) := by
  intro fuel
  induction fuel with
  | zero => intro next slug i _ h2 h3 _ _; omega
  | succ fuel ih =>
    intro next slug i h1 h2 h3 h4 h5
    rw [getUniqueSlugLoop_step, if_pos h1]
    by_cases hni : next = i
    · subst hni
      cases fuel with
      | zero => omega
      | succ fuel' =>
        rw [getUniqueSlugLoop_step]
        simp [h5]
    · exact ih (next + 1) (gen next) i (h4 next (le_refl _) (by omega)) (by omega)
        (by omega) (fun j hj1 hj2 => h4 j (by omega) hj2) h5

/-- Without a custom slug, `getUniqueSlug` returns the first fresh candidate
among the (at most five) generated ones. -/
theorem getUniqueSlug_first_fresh (kv : List (String × StoredLink))
    (gen : Nat → String) (i : Nat) (hi : i < 5)
    (hfresh : (kvGet kv (gen i)).isSome = false)
    (hbefore : ∀ j, j < i → (kvGet kv (gen j)).isSome = true) :
    getUniqueSlug kv none gen = Except.ok (gen i) := by
  have e : getUniqueSlug kv none gen =
      getUniqueSlugLoop kv false gen (4 + 1) 1 (gen 0) := rfl
  rw [e]
  by_cases hi0 : i = 0
  · subst hi0
    rw [getUniqueSlugLoop_step]
    simp [hfresh]
  · exact getUniqueSlugLoop_skips kv gen (4 + 1) 1 (gen 0) i
      (hbefore 0 (by omega)) (by omega) (by omega)
      (fun j hj1 hj2 => hbefore j hj2) hfresh

/-- A generated slug has exactly six characters. -/
theorem generateSlug_length (r : Fin 6 → Fin 62) : (generateSlug r).length = 6 := by
  show ((List.finRange 6).map (fun i => slugAlphabet.data.getD (r i) 'a')).length = 6
  rw [List.length_map, List.length_finRange]

/-- Every character of a generated slug is drawn from the slug alphabet. -/
theorem generateSlug_chars (r : Fin 6 → Fin 62) :
    ∀ c ∈ (generateSlug r).data, c ∈ slugAlphabet.data := by
  intro c hc
  simp only [generateSlug, List.mem_map] at hc
  obtain ⟨i, _, rfl⟩ := hc
  have hlen : slugAlphabet.data.length = 62 := by decide
  have hi : ((r i : Nat)) < slugAlphabet.data.length := by
    rw [hlen]; exact (r i).isLt
  rw [List.getD_eq_getElem slugAlphabet.data 'a' hi]
  exact List.getElem_mem hi

/-- Prefix transitivity. -/
theorem charsPrefix_trans {p q l : List Char} (h1 : charsPrefix p q = true)
    (h2 : charsPrefix q l = true) : charsPrefix p l = true := by
  obtain ⟨r1, rfl⟩ := (charsPrefix_iff p q).1 h1
  obtain ⟨r2, rfl⟩ := (charsPrefix_iff (p ++ r1) l).1 h2
  exact (charsPrefix_iff p _).2 ⟨r1 ++ r2, by simp⟩

/-- A string that does not start with `a` does not start with any extension
of `a`. -/
theorem not_startsWith_of_longer {s a b : String}
    (hab : charsPrefix a.data b.data = true)
    (hs : strStartsWith s a = false) : strStartsWith s b = false := by
  cases hsb : strStartsWith s b
  · rfl
  · have hsb' : charsPrefix b.data s.data = true := hsb
    have h2 : charsPrefix a.data s.data = true := charsPrefix_trans hab hsb'
    have hs' : charsPrefix a.data s.data = false := hs
    rw [hs'] at h2
    simp at h2

/-- A string with a non-empty prefix is non-empty. -/
theorem beq_empty_false_of_prefix {s pat : String} (hpat : pat.data ≠ [])
    (h : strStartsWith s pat = true) : (s == "") = false := by
  obtain ⟨r, hr⟩ := (charsPrefix_iff pat.data s.data).1 h
  cases hb : s == ""
  · rfl
  · have hse : s = "" := by simpa using hb
    subst hse
    have : pat.data = [] ∧ r = [] := by simpa using hr.symm
    exact absurd this.1 hpat

/-- Cancelling a common leading slash in the prefix test. -/
theorem strStartsWith_slash (s t : String) :
    strStartsWith ("/" ++ s) ("/" ++ t) = strStartsWith s t := by
  simp only [strStartsWith, String.data_append]
  exact charsPrefix_append_left ("/").data t.data s.data

/-- Dropping one character after prepending a slash gives back `s`. -/
theorem strDrop_slash (s : String) : strDrop ("/" ++ s) 1 = s := by
  cases s with
  | mk d => simp [strDrop, String.data_append]

/-- A slash-prefixed string equals another iff the bodies are equal. -/
theorem slash_append_inj {s t : String} : ("/" ++ s) = ("/" ++ t) ↔ s = t := by
  constructor
  · intro h
    have hd : ("/" ++ s).data = ("/" ++ t).data := congrArg String.data h
    simp only [String.data_append] at hd
    cases s with
    | mk ds =>
      cases t with
      | mk dt =>
        simp at hd
        simp [hd]
  · intro h
    rw [h]

/-- Appending produces a string that ends with the appended part. -/
theorem strEndsWith_append (a b : String) : strEndsWith (a ++ b) b = true := by
  simp only [strEndsWith, String.data_append, List.reverse_append]
  exact charsPrefix_self_append _ _

/-- The string `origin + '/' + slug` ends with `'/' + slug`. -/
theorem strEndsWith_slash (a s : String) :
    strEndsWith (a ++ "/" ++ s) ("/" ++ s) = true := by
  rw [String.append_assoc]
  exact strEndsWith_append a ("/" ++ s)

/-- A slash-prefixed path of a slug that avoids the API-route prefixes is
dispatched to the redirect handler. -/
theorem fetch_redirect_route (env : Env) (s origin : String) (authH : Option String)
    (body : ReqBody) (rand : Nat → Fin 6 → Fin 62) (now : String)
    (hs : s ≠ "")
    (hapi : strStartsWith s "api/" = false)
    (hlinks : strStartsWith s "links" = false) :
    fetch env ⟨"GET", "/" ++ s, origin, authH, body⟩ rand now =
      (match kvGet env.urlKV s with
       | none => (Resp.text 404 "not found", env)
       | some stored =>
         (Resp.redirect stored.originalUrl,
          { env with clicksKV := incrementClickCount env.clicksKV s })) := by
  have hne_lit : ∀ t : String, s ≠ t → (("/" ++ s) == ("/" ++ t)) = false := by
    intro t ht
    cases hb : ("/" ++ s) == ("/" ++ t)
    · rfl
    · exact absurd (slash_append_inj.1 (by simpa using hb)) ht
  have hroot : (("/" ++ s) == "/") = false := by
    cases hb : ("/" ++ s) == "/"
    · rfl
    · have heq : ("/" ++ s) = "/" := by simpa using hb
      have hd := congrArg String.data heq
      simp only [String.data_append] at hd
      have hd' : ('/' :: s.data) = ['/'] := by
        simpa [show ("/" : String).data = ['/'] from rfl] using hd
      have hnil : s.data = [] := by simpa using hd'
      have hse : s = "" := by
        cases s with
        | mk d =>
          have : d = [] := hnil
          rw [this]
      exact absurd hse hs
  have hnapi : strStartsWith ("/" ++ s) "/api/" = false := by
    rw [show ("/api/" : String) = "/" ++ "api/" from by decide, strStartsWith_slash]
    exact hapi
  have hinfo : isInfoPath ("/" ++ s) = false := by
    have h1 : strStartsWith ("/" ++ s) "/api/links/" = false := by
      rw [show ("/api/links/" : String) = "/" ++ "api/links/" from by decide,
        strStartsWith_slash]
      exact not_startsWith_of_longer (by decide) hapi
    have h2 : strStartsWith ("/" ++ s) "/links/" = false := by
      rw [show ("/links/" : String) = "/" ++ "links/" from by decide, strStartsWith_slash]
      exact not_startsWith_of_longer (by decide) hlinks
    simp [isInfoPath, h1, h2]
  have hs1 : s ≠ "api/links" := by intro he; subst he; exact absurd hapi (by decide)
  have hs2 : s ≠ "api/links/" := by intro he; subst he; exact absurd hapi (by decide)
  have hs3 : s ≠ "links" := by intro he; subst he; exact absurd hlinks (by decide)
  have hs4 : s ≠ "links/" := by intro he; subst he; exact absurd hlinks (by decide)
  have hlist : isListPath ("/" ++ s) = false := by
    simp only [isListPath]
    rw [show ("/api/links" : String) = "/" ++ "api/links" from by decide,
      show ("/api/links/" : String) = "/" ++ "api/links/" from by decide,
      show ("/links" : String) = "/" ++ "links" from by decide,
      show ("/links/" : String) = "/" ++ "links/" from by decide,
      hne_lit _ hs1, hne_lit _ hs2, hne_lit _ hs3, hne_lit _ hs4]
    rfl
  have hslash : strStartsWith ("/" ++ s) "/" = true := by
    show charsPrefix ("/" : String).data (("/" ++ s) : String).data = true
    rw [String.data_append]
    exact charsPrefix_self_append _ _
  have hdrop := strDrop_slash s
  have hsne : (s == "") = false := by simp [hs]
  simp [fetch, hroot, hinfo, hlist, hnapi, hslash, hdrop, hsne]

/-- An info-route path is never the root path. -/
theorem isInfoPath_ne_root {pathname : String} (h : isInfoPath pathname = true) :
    (pathname == "/") = false := by
  have hlen : 7 < pathname.length := by
    simp only [isInfoPath, Bool.or_eq_true, Bool.and_eq_true, decide_eq_true_eq] at h
    rcases h with ⟨_, h⟩ | ⟨_, h⟩ <;> omega
  cases hb : pathname == "/"
  · rfl
  · have he : pathname = "/" := by simpa using hb
    rw [he] at hlen
    exact absurd hlen (by decide)

/-- The list route matches exactly four paths. -/
theorem isListPath_cases {pathname : String} (h : isListPath pathname = true) :
    pathname = "/api/links" ∨ pathname = "/api/links/" ∨
    pathname = "/links" ∨ pathname = "/links/" := by
  have h' := h
  simp only [isListPath, Bool.or_eq_true, beq_iff_eq] at h'
  tauto

/-- C1, counterexample to the claim as stated: a secret that parses as a
JSON *string* (not an array) — here the five-character secret value
`"abc"` including its quotes — authorizes the bearer token `bc`, which is
merely a substring of the parsed string, because `JSON.parse(x) as string[]`
performs no runtime check and `String.prototype.includes` is a substring
test. The claim requires this request to be unauthorized. -/
theorem C1_counterexample :
    validateApiKey (some "Bearer bc") (some "\"abc\"") =
      some (ParsedSecret.str "abc") ∧
    parseSecret "\"abc\"" = ParsedSecret.str "abc" := by
  constructor
  · decide
  · decide

/-- C1 (amended): authorization succeeds exactly when the Authorization
header uses the Bearer scheme, the secret resolves to a non-empty value,
and the parsed secret `.includes` the provided token — i.e. the token is
a string element of a parsed JSON array, or (the unintended extra case)
the secret parses as a JSON string containing the token as a substring;
absent secrets, empty secrets, parse failures and any other parse result
are unauthorized. -/
theorem C1_auth_characterization (authHeader secret : Option String) :
    (validateApiKey authHeader secret).isSome = true ↔
      ∃ h, authHeader = some h ∧ strStartsWith h "Bearer " = true ∧
        ∃ sv, secret = some sv ∧ sv ≠ "" ∧
          parsedIncludes (parseSecret sv) (strDrop h 7) = true := by
  cases authHeader with
  | none => simp [validateApiKey]
  | some h =>
    cases hb : strStartsWith h "Bearer " with
    | false => simp [validateApiKey, hb]
    | true =>
      cases secret with
      | none => simp [validateApiKey, hb]
      | some sv =>
        by_cases hsv : sv = ""
        · subst hsv
          simp [validateApiKey, hb]
        · have hsvb : (sv == "") = false := by simp [hsv]
          cases hp : parseSecret sv with
          | invalid => simp [validateApiKey, hb, hsvb, hp, parsedIncludes, hsv]
          | arr elems =>
            cases hinc : parsedIncludes (ParsedSecret.arr elems) (strDrop h 7) <;>
              simp [validateApiKey, hb, hsvb, hp, hinc, hsv]
          | str w =>
            cases hinc : parsedIncludes (ParsedSecret.str w) (strDrop h 7) <;>
              simp [validateApiKey, hb, hsvb, hp, hinc, hsv]

/-- C3: an authorized shorten request with a custom slug already present in
the link store responds 500 and leaves the environment (in particular the
existing record and its `originalUrl`) unchanged; the duplicate is detected
at the single existence check — the error and the response are the same for
every random stream, i.e. there is no retry or regeneration. -/
theorem C3_duplicate_custom_slug (env : Env) (origin u s now : String)
    (authH : Option String) (p : ParsedSecret) (l : StoredLink)
    (rand : Nat → Fin 6 → Fin 62)
    (hauth : validateApiKey authH env.apiKeys = some p)
    (hu : strStartsWith u "http" = true)
    (hs : s ≠ "")
    (hdup : kvGet env.urlKV s = some l) :
    fetch env ⟨"POST", "/api/shorten", origin, authH, ReqBody.obj (some u) (some s)⟩
        rand now = (Resp.jsonError 500 "Server Error", env) ∧
    getUniqueSlug env.urlKV (some s) (genFrom rand) =
      Except.error SlugError.duplicateSlug := by
  have hgus := getUniqueSlug_custom_dup env.urlKV s (genFrom rand) hs (by simp [hdup])
  have hub : (u == "") = false := beq_empty_false_of_prefix (by decide) hu
  exact ⟨by simp [fetch, hauth, hu, hub, hgus], hgus⟩

/-- C3 witness. -/
theorem C3_duplicate_custom_slug_witness :
    fetch ⟨[("abc123", ⟨"https://a.com", "abc123", "T0"⟩)], some "[\"k\"]", []⟩
        ⟨"POST", "/api/shorten", "https://sr.example", some "Bearer k",
          ReqBody.obj (some "https://b.com") (some "abc123")⟩ (fun _ _ => 0) "T1" =
      (Resp.jsonError 500 "Server Error",
       ⟨[("abc123", ⟨"https://a.com", "abc123", "T0"⟩)], some "[\"k\"]", []⟩) :=
  (C3_duplicate_custom_slug
    ⟨[("abc123", ⟨"https://a.com", "abc123", "T0"⟩)], some "[\"k\"]", []⟩
    "https://sr.example" "https://b.com" "abc123" "T1" (some "Bearer k")
    (ParsedSecret.arr [JElem.jstr "k"]) ⟨"https://a.com", "abc123", "T0"⟩
    (fun _ _ => 0) (by decide) (by decide) (by decide) (by decide)).1

/-- C4: every request to an auth-gated route (shorten, delete, single-link
info, list, including the `/links` aliases) whose Authorization header fails
validation — missing header, non-Bearer scheme, or token not accepted —
yields 401 with no change to the stores, regardless of the request body. -/
theorem C4_unauthorized_401 (env : Env) (req : Req) (rand : Nat → Fin 6 → Fin 62)
    (now : String)
    (hauth : validateApiKey req.authHeader env.apiKeys = none)
    (hroute : (req.method = "POST" ∧ req.pathname = "/api/shorten") ∨
      (req.method = "DELETE" ∧ req.pathname = "/api/delete") ∨
      (req.method = "GET" ∧
        (isInfoPath req.pathname = true ∨ isListPath req.pathname = true))) :
    fetch env req rand now = (Resp.jsonError 401 "missing or invalid API key", env) := by
  obtain ⟨method, pathname, origin, authH, body⟩ := req
  dsimp only at hauth hroute ⊢
  rcases hroute with ⟨rfl, rfl⟩ | ⟨rfl, rfl⟩ | ⟨rfl, hpath⟩
  · simp [fetch, hauth]
  · simp [fetch, hauth]
  · rcases hpath with hinfo | hlist
    · have hroot : (pathname == "/") = false := isInfoPath_ne_root hinfo
      simp [fetch, hauth, hinfo, hroot]
    · rcases isListPath_cases hlist with rfl | rfl | rfl | rfl
      · simp [fetch, hauth, isListPath,
          show isInfoPath "/api/links" = false from by decide]
      · simp [fetch, hauth, isListPath,
          show isInfoPath "/api/links/" = false from by decide]
      · simp [fetch, hauth, isListPath,
          show isInfoPath "/links" = false from by decide]
      · simp [fetch, hauth, isListPath,
          show isInfoPath "/links/" = false from by decide]

/-- C4 witness. -/
theorem C4_unauthorized_401_witness :
    fetch ⟨[], none, []⟩
        ⟨"POST", "/api/shorten", "https://sr.example", none, ReqBody.malformed⟩
        (fun _ _ => 0) "T" =
      (Resp.jsonError 401 "missing or invalid API key", ⟨[], none, []⟩) :=
  C4_unauthorized_401 ⟨[], none, []⟩
    ⟨"POST", "/api/shorten", "https://sr.example", none, ReqBody.malformed⟩
    (fun _ _ => 0) "T" (by decide) (Or.inl ⟨rfl, rfl⟩)

/-- C7: an authorized shorten request whose `url` does not start with
`http` responds 400 "Invalid URL" and returns the environment unchanged
for every store content — establishing that neither store is read (the
response does not depend on them) nor written (the state is returned
as-is). -/
theorem C7_invalid_url_400 (env : Env) (origin u now : String)
    (authH : Option String) (slugField : Option String) (p : ParsedSecret)
    (rand : Nat → Fin 6 → Fin 62)
    (hauth : validateApiKey authH env.apiKeys = some p)
    (hu : strStartsWith u "http" = false) :
    fetch env ⟨"POST", "/api/shorten", origin, authH, ReqBody.obj (some u) slugField⟩
        rand now = (Resp.jsonError 400 "Invalid URL", env) := by
  simp [fetch, hauth, hu]

/-- C7 witness. -/
theorem C7_invalid_url_400_witness :
    fetch ⟨[], some "[\"k\"]", []⟩
        ⟨"POST", "/api/shorten", "https://sr.example", some "Bearer k",
          ReqBody.obj (some "ftp://x") none⟩ (fun _ _ => 0) "T" =
      (Resp.jsonError 400 "Invalid URL", ⟨[], some "[\"k\"]", []⟩) :=
  C7_invalid_url_400 ⟨[], some "[\"k\"]", []⟩ "https://sr.example" "ftp://x" "T"
    (some "Bearer k") none (ParsedSecret.arr [JElem.jstr "k"]) (fun _ _ => 0)
    (by decide) (by decide)

/-- C9: an authorized delete request whose body carries no slug, or the
empty-string slug, responds 400 "missing slug" and changes nothing. -/
theorem C9_delete_missing_slug (env : Env) (origin now : String)
    (authH : Option String) (urlField : Option String) (slugField : Option String)
    (p : ParsedSecret) (rand : Nat → Fin 6 → Fin 62)
    (hauth : validateApiKey authH env.apiKeys = some p)
    (hslug : slugField = none ∨ slugField = some "") :
    fetch env ⟨"DELETE", "/api/delete", origin, authH, ReqBody.obj urlField slugField⟩
        rand now = (Resp.jsonError 400 "missing slug", env) := by
  rcases hslug with rfl | rfl <;> simp [fetch, hauth]

/-- C9 witness. -/
theorem C9_delete_missing_slug_witness :
    fetch ⟨[], some "[\"k\"]", []⟩
        ⟨"DELETE", "/api/delete", "https://sr.example", some "Bearer k",
          ReqBody.obj none none⟩ (fun _ _ => 0) "T" =
      (Resp.jsonError 400 "missing slug", ⟨[], some "[\"k\"]", []⟩) :=
  C9_delete_missing_slug ⟨[], some "[\"k\"]", []⟩ "https://sr.example" "T"
    (some "Bearer k") none none (ParsedSecret.arr [JElem.jstr "k"]) (fun _ _ => 0)
    (by decide) (Or.inl rfl)

/-- C10: a shorten request whose body carries `slug: ""` is handled exactly
like one with no slug at all — both at the `getUniqueSlug` contract (the
empty string is falsy, so a candidate is auto-generated with the bounded
retry) and for the whole request. -/
theorem C10_empty_slug_like_absent (env : Env) (origin now : String)
    (authH : Option String) (url : Option String) (rand : Nat → Fin 6 → Fin 62) :
    fetch env ⟨"POST", "/api/shorten", origin, authH, ReqBody.obj url (some "")⟩
        rand now =
      fetch env ⟨"POST", "/api/shorten", origin, authH, ReqBody.obj url none⟩
        rand now ∧
    getUniqueSlug env.urlKV (some "") (genFrom rand) =
      getUniqueSlug env.urlKV none (genFrom rand) := by
  refine ⟨?_, getUniqueSlug_empty_custom _ _⟩
  simp [fetch, getUniqueSlug_empty_custom]

/-- C2, counterexample to the claim as stated: the custom slug `api/x` is
accepted and stored by an authorized shorten request (the returned shortUrl
ends in `/api/x`), but a subsequent `GET /api/x` is not routed to the
redirect handler — every GET under `/api/` skips it — so it answers
404 instead of the claimed 301 redirect. -/
theorem C2_counterexample :
    (fetch ⟨[], some "[\"k\"]", []⟩
        ⟨"POST", "/api/shorten", "https://sr.example", some "Bearer k",
          ReqBody.obj (some "https://a.com") (some "api/x")⟩ (fun _ _ => 0) "T").1 =
      Resp.shortened "https://sr.example/api/x" "api/x" ∧
    (fetch (fetch ⟨[], some "[\"k\"]", []⟩
        ⟨"POST", "/api/shorten", "https://sr.example", some "Bearer k",
          ReqBody.obj (some "https://a.com") (some "api/x")⟩ (fun _ _ => 0) "T").2
        ⟨"GET", "/api/x", "https://sr.example", some "Bearer k", ReqBody.malformed⟩
        (fun _ _ => 0) "T").1 = Resp.text 404 "not found" := by
  constructor
  · decide
  · decide

/-- C2 (amended): for every authorized shorten request with a fresh custom
slug that does not collide with the API routes (it does not start with
`api/` or `links`), the response is `shortUrl = origin + '/' + slug` — which
ends with `'/' + slug` — and a subsequent `GET /{slug}` against the updated
store answers a 301 redirect to the original url. -/
theorem C2_fresh_slug_roundtrip (env : Env) (origin u s now : String)
    (authH : Option String) (p : ParsedSecret) (rand : Nat → Fin 6 → Fin 62)
    (hauth : validateApiKey authH env.apiKeys = some p)
    (hu : strStartsWith u "http" = true)
    (hs : s ≠ "")
    (hfresh : kvGet env.urlKV s = none)
    (hapi : strStartsWith s "api/" = false)
    (hlinks : strStartsWith s "links" = false) :
    (fetch env ⟨"POST", "/api/shorten", origin, authH, ReqBody.obj (some u) (some s)⟩
        rand now).1 = Resp.shortened (origin ++ "/" ++ s) s ∧
    strEndsWith (origin ++ "/" ++ s) ("/" ++ s) = true ∧
    ∀ (origin2 now2 : String) (authH2 : Option String) (body2 : ReqBody)
      (rand2 : Nat → Fin 6 → Fin 62),
      (fetch (fetch env ⟨"POST", "/api/shorten", origin, authH,
            ReqBody.obj (some u) (some s)⟩ rand now).2
          ⟨"GET", "/" ++ s, origin2, authH2, body2⟩ rand2 now2).1 =
        Resp.redirect u ∧
      respStatus (Resp.redirect u) = 301 := by
  have hub : (u == "") = false := beq_empty_false_of_prefix (by decide) hu
  have hgus := getUniqueSlug_custom_fresh env.urlKV s (genFrom rand) hs hfresh
  have hfetch : fetch env ⟨"POST", "/api/shorten", origin, authH,
      ReqBody.obj (some u) (some s)⟩ rand now =
      (Resp.shortened (origin ++ "/" ++ s) s,
       { env with urlKV := kvPut env.urlKV s ⟨u, s, now⟩ }) := by
    simp [fetch, hauth, hu, hub, hgus]
  refine ⟨by rw [hfetch], strEndsWith_slash origin s, ?_⟩
  intro origin2 now2 authH2 body2 rand2
  rw [hfetch]
  rw [fetch_redirect_route _ s origin2 authH2 body2 rand2 now2 hs hapi hlinks]
  refine ⟨?_, rfl⟩
  simp [kvGet_kvPut_same]

/-- C2 witness. -/
theorem C2_fresh_slug_roundtrip_witness :
    (fetch ⟨[], some "[\"k\"]", []⟩
        ⟨"POST", "/api/shorten", "https://sr.example", some "Bearer k",
          ReqBody.obj (some "https://a.com") (some "abc123")⟩ (fun _ _ => 0) "T").1 =
      Resp.shortened ("https://sr.example" ++ "/" ++ "abc123") "abc123" :=
  (C2_fresh_slug_roundtrip ⟨[], some "[\"k\"]", []⟩ "https://sr.example"
    "https://a.com" "abc123" "T" (some "Bearer k")
    (ParsedSecret.arr [JElem.jstr "k"]) (fun _ _ => 0)
    (by decide) (by decide) (by decide) (by decide) (by decide) (by decide)).1

/-- C5: a redirect of a stored slug answers a 301 redirect to the stored
url, leaves the link store unchanged, and raises that slug's read-back
click count by exactly one; a missing counter is read as 0, so the first
redirect stores the string `"1"`. -/
theorem C5_redirect_increments_click (env : Env) (s origin now : String)
    (authH : Option String) (body : ReqBody) (rand : Nat → Fin 6 → Fin 62)
    (l : StoredLink)
    (hstored : kvGet env.urlKV s = some l)
    (hs : s ≠ "")
    (hapi : strStartsWith s "api/" = false)
    (hlinks : strStartsWith s "links" = false) :
    (fetch env ⟨"GET", "/" ++ s, origin, authH, body⟩ rand now).1 =
        Resp.redirect l.originalUrl ∧
    respStatus (fetch env ⟨"GET", "/" ++ s, origin, authH, body⟩ rand now).1 = 301 ∧
    ((fetch env ⟨"GET", "/" ++ s, origin, authH, body⟩ rand now).2).urlKV =
        env.urlKV ∧
    getClickCount
        ((fetch env ⟨"GET", "/" ++ s, origin, authH, body⟩ rand now).2).clicksKV s =
      getClickCount env.clicksKV s + 1 ∧
    (kvGet env.clicksKV s = none →
      kvGet ((fetch env ⟨"GET", "/" ++ s, origin, authH, body⟩ rand now).2).clicksKV s =
        some "1") := by
  rw [fetch_redirect_route env s origin authH body rand now hs hapi hlinks, hstored]
  exact ⟨rfl, rfl, rfl, clickCount_after_increment env.clicksKV s,
    fun h => increment_of_missing h⟩

/-- C5 witness. -/
theorem C5_redirect_increments_click_witness :
    (fetch ⟨[("abc123", ⟨"https://a.com", "abc123", "T0"⟩)], none, []⟩
        ⟨"GET", "/" ++ "abc123", "https://sr.example", none, ReqBody.malformed⟩
        (fun _ _ => 0) "T").1 = Resp.redirect "https://a.com" :=
  (C5_redirect_increments_click
    ⟨[("abc123", ⟨"https://a.com", "abc123", "T0"⟩)], none, []⟩ "abc123"
    "https://sr.example" "T" none ReqBody.malformed (fun _ _ => 0)
    ⟨"https://a.com", "abc123", "T0"⟩ (by decide) (by decide) (by decide)
    (by decide)).1

/-- C6: for the auto-generated path of slug resolution (no custom slug):
(1) any returned slug is a 6-character string over `[a-zA-Z0-9]` that was
absent from the link store at check time; (2) if the first five generated
candidates all collide, the operation fails with `SlugExhausted` (the fixed
bound of 5 attempts); (3) the first fresh candidate among the five is the
one returned. -/
theorem C6_autogen_slug (kv : List (String × StoredLink))
    (rand : Nat → Fin 6 → Fin 62) :
    (∀ s, getUniqueSlug kv none (genFrom rand) = Except.ok s →
        s.length = 6 ∧ (∀ c ∈ s.data, c ∈ slugAlphabet.data) ∧ kvGet kv s = none) ∧
    ((∀ i, i < 5 → (kvGet kv (genFrom rand i)).isSome = true) →
        getUniqueSlug kv none (genFrom rand) =
          Except.error SlugError.slugExhausted) ∧
    (∀ i, i < 5 → (kvGet kv (genFrom rand i)).isSome = false →
        (∀ j, j < i → (kvGet kv (genFrom rand j)).isSome = true) →
        getUniqueSlug kv none (genFrom rand) = Except.ok (genFrom rand i)) := by
  refine ⟨?_, getUniqueSlug_exhausted kv _,
    fun i hi hf hb => getUniqueSlug_first_fresh kv _ i hi hf hb⟩
  intro s hok
  have e : getUniqueSlug kv none (genFrom rand) =
      getUniqueSlugLoop kv false (genFrom rand) 5 1 (genFrom rand 0) := rfl
  rw [e] at hok
  obtain ⟨hnone, hsh⟩ := getUniqueSlugLoop_ok_shape kv (genFrom rand) 5 1 _ s hok
  have hex : ∃ i, s = genFrom rand i := by
    rcases hsh with he | hgen
    · exact ⟨0, he⟩
    · exact hgen
  obtain ⟨i, rfl⟩ := hex
  exact ⟨generateSlug_length (rand i), generateSlug_chars (rand i), hnone⟩

/-- C6 witness. -/
theorem C6_autogen_slug_witness :
    getUniqueSlug ([] : List (String × StoredLink)) none
        (genFrom (fun _ _ => 0)) = Except.ok (genFrom (fun _ _ => 0) 0) :=
  (C6_autogen_slug [] (fun _ _ => 0)).2.2 0 (by decide) (by decide)
    (fun j hj => absurd hj (Nat.not_lt_zero j))

/-- C8: an authorized delete of an unknown slug answers 404 and changes
nothing; deleting a stored slug removes exactly the link record — the click
store is returned untouched — after which the slug no longer resolves, and
a subsequent `GET /{slug}` (for slugs routed to the redirect handler)
answers 404. -/
theorem C8_delete_semantics (env : Env) (origin now : String)
    (authH : Option String) (urlField : Option String) (s : String)
    (p : ParsedSecret) (rand : Nat → Fin 6 → Fin 62)
    (hauth : validateApiKey authH env.apiKeys = some p)
    (hs : s ≠ "") :
    (kvGet env.urlKV s = none →
      fetch env ⟨"DELETE", "/api/delete", origin, authH, ReqBody.obj urlField (some s)⟩
          rand now = (Resp.jsonError 404 "slug not found", env)) ∧
    (∀ l, kvGet env.urlKV s = some l →
      fetch env ⟨"DELETE", "/api/delete", origin, authH, ReqBody.obj urlField (some s)⟩
          rand now =
        (Resp.deleted, { env with urlKV := kvDelete env.urlKV s }) ∧
      kvGet (kvDelete env.urlKV s) s = none ∧
      ∀ (origin2 now2 : String) (authH2 : Option String) (body2 : ReqBody)
        (rand2 : Nat → Fin 6 → Fin 62),
        strStartsWith s "api/" = false → strStartsWith s "links" = false →
        (fetch { env with urlKV := kvDelete env.urlKV s }
            ⟨"GET", "/" ++ s, origin2, authH2, body2⟩ rand2 now2).1 =
          Resp.text 404 "not found") := by
  have hsb : (s == "") = false := by simp [hs]
  constructor
  · intro hnone
    simp [fetch, hauth, hsb, hnone]
  · intro l hsome
    have hget : (kvGet env.urlKV s).isSome = true := by simp [hsome]
    refine ⟨by simp [fetch, hauth, hsb, hget], kvGet_kvDelete_same env.urlKV s, ?_⟩
    intro origin2 now2 authH2 body2 rand2 hapi hlinks
    rw [fetch_redirect_route _ s origin2 authH2 body2 rand2 now2 hs hapi hlinks]
    simp [kvGet_kvDelete_same]

/-- C8 witness. -/
theorem C8_delete_semantics_witness :
    fetch ⟨[], some "[\"k\"]", [("abc123", "7")]⟩
        ⟨"DELETE", "/api/delete", "https://sr.example", some "Bearer k",
          ReqBody.obj none (some "nope")⟩ (fun _ _ => 0) "T" =
      (Resp.jsonError 404 "slug not found", ⟨[], some "[\"k\"]", [("abc123", "7")]⟩) :=
  (C8_delete_semantics ⟨[], some "[\"k\"]", [("abc123", "7")]⟩ "https://sr.example"
    "T" (some "Bearer k") none "nope" (ParsedSecret.arr [JElem.jstr "k"])
    (fun _ _ => 0) (by decide) (by decide)).1 (by decide)

/-- Fidelity of the secret parser: a malformed scalar token (here `tru`)
poisons the whole parse, as for `JSON.parse` — it does not merely drop one
element — so such a secret authorizes nothing. -/
theorem parseSecret_rejects_malformed_scalar :
    parseSecret "[tru, \"k\"]" = ParsedSecret.invalid ∧
    validateApiKey (some "Bearer k") (some "[tru, \"k\"]") = none := by
  constructor
  · decide
  · decide

/-- Fidelity of the secret parser: an unescaped control character inside a
JSON string is a parse error, as for `JSON.parse`. -/
theorem parseSecret_rejects_raw_control :
    parseSecret "\"a\nb\"" = ParsedSecret.invalid := by decide

/-- Fidelity of the secret parser: well-formed flat secrets parse, with
numbers and literals collapsing to non-matching elements. -/
theorem parseSecret_accepts_flat :
    parseSecret "[\"k1\", -12.5e+3, true, null, \"k2\"]" =
      ParsedSecret.arr [JElem.jstr "k1", JElem.jother, JElem.jother,
        JElem.jother, JElem.jstr "k2"] := by decide

/-- Fidelity of the secret parser: nested containers are valid JSON; they
collapse to elements a string token cannot match, while sibling string
elements still authorize (the object braces are written `\x7b`/`\x7d`). -/
theorem parseSecret_accepts_nested :
    parseSecret "[\x7b\"a\": [1, \"b\"]\x7d, [\"x\"], \"k\"]" =
      ParsedSecret.arr [JElem.jother, JElem.jother, JElem.jstr "k"] ∧
    (validateApiKey (some "Bearer k")
        (some "[\x7b\"a\": [1, \"b\"]\x7d, [\"x\"], \"k\"]")).isSome = true := by
  constructor
  · decide
  · decide

/-- Fidelity of the secret parser: a non-surrogate unicode escape denotes
its code point (`A` is `A`). -/
theorem parseSecret_unicode_escape :
    parseSecret "[\"K\\u0041\"]" = ParsedSecret.arr [JElem.jstr "KA"] := by decide
